import Mathlib

/-!
Verification development for the co-browsing portfolio assistant.

The development shallowly embeds, in Lean, the target-resolution and
action-execution engine (`src/lib/tool-runner.ts`), the snapshot extractor
(`src/lib/page-snapshot.ts`), the API route's planning helpers
(`extractToolCalls`, `slimSnapshot`, prompt builders) and the client
orchestration loop (`src/components/chat-panel.tsx`).

Modelling conventions:
* The live document tree is modelled as a flat list of elements in document
  order (`Doc.elems`); element references become indices into that list.
* Facts computed by the browser engine rather than by the program itself
  (computed visibility, which CSS selectors match an element, the set of
  descendant anchors of a card, the nearest ancestor section) are recorded
  as fields of the element, since the program only ever consumes them
  through `querySelector`-style calls.
* JS strings are modelled as Lean `String` (one `Char` per UTF-16 unit for
  the ASCII texts involved); JS numbers reaching `readNumber` are modelled
  as `Int` (the code only ever scrolls by and rounds them).
-/

namespace NavChat

/-! ### JS string primitives -/

/-- Whitespace class of the JS regexes `\s` used by the code (ASCII part). -/
def isJsWs (c : Char) : Bool :=
  c = ' ' || c = '\t' || c = '\n' || c = '\r' || c = '\x0b' || c = '\x0c'

/-- Word-character class of the JS regex `\w` / boundary `\b`. -/
def isWordChar (c : Char) : Bool :=
  ('a' ≤ c && c ≤ 'z') || ('A' ≤ c && c ≤ 'Z') || c.isDigit || c = '_'

/-- Models `replace(/\s+/g, " ")`: every maximal whitespace run becomes one
space.  The flag records whether the previous character was whitespace. -/
def collapseAux : Bool → List Char → List Char
  | _, [] => []
  | prevWs, c :: rest =>
    if isJsWs c then
      if prevWs then collapseAux true rest
      else ' ' :: collapseAux true rest
    else c :: collapseAux false rest

def collapseRuns (l : List Char) : List Char := collapseAux false l

/-- Models `String.prototype.trim`. -/
def trimChars (l : List Char) : List Char :=
  ((l.dropWhile isJsWs).reverse.dropWhile isJsWs).reverse

def jsTrim (s : String) : String := String.mk (trimChars s.toList)

/-- `value.replace(/\s+/g, " ").trim()` — used by both `normalize` (tool
runner) and `normalizeText` (snapshot extractor). -/
def squashWs (s : String) : String := String.mk (trimChars (collapseRuns s.toList))

/-- `normalize` from tool-runner.ts: lowercase, collapse whitespace, trim. -/
def normalize (s : String) : String :=
  squashWs (String.mk (s.toList.map Char.toLower))

/-- Index of the first occurrence of `needle` in `hay`
(`String.prototype.indexOf`, with `none` for the JS `-1`). -/
def indexOfSub (hay needle : List Char) : Option Nat :=
  (List.range (hay.length + 1)).find? (fun k => needle.isPrefixOf (hay.drop k))

def strIndexOf (hay needle : String) : Option Nat :=
  indexOfSub hay.toList needle.toList

/-- `hay.includes(needle)`. -/
def includes (hay needle : String) : Bool := (strIndexOf hay needle).isSome

/-- `s.slice(0, n)` for a non-negative bound. -/
def jsSlice (s : String) (n : Nat) : String := String.mk (s.toList.take n)

def digitsToNat (l : List Char) : Nat :=
  l.foldl (fun acc c => acc * 10 + (c.toNat - '0'.toNat)) 0

/-- First match of the JS regex `\b(\d+)\b`: the first maximal digit run
whose neighbours on both sides are absent or non-word characters.  (A run
followed by a word character — e.g. the `2` of `"2nd"` — backtracks and
fails, and no later start position inside the run can satisfy `\b`.) -/
def firstStandaloneNum (prev : Option Char) : List Char → Option Nat
  | [] => none
  | c :: rest =>
    if c.isDigit && (match prev with | none => true | some p => !isWordChar p) then
      let run := (c :: rest).takeWhile Char.isDigit
      match (c :: rest).dropWhile Char.isDigit with
      | [] => some (digitsToNat run)
      | a :: _ =>
        if !isWordChar a then some (digitsToNat run)
        else firstStandaloneNum (some c) rest
    else firstStandaloneNum (some c) rest

/-- Models `Number(s)` for the attribute/argument strings the code feeds it:
an optionally signed decimal integer surrounded by whitespace.  `none`
stands for `NaN` (which in the code never compares equal to anything). -/
def jsParseNumber? (s : String) : Option Int :=
  let t := (jsTrim s).toList
  match t with
  | '-' :: ds => if ds ≠ [] && ds.all Char.isDigit then some (-(digitsToNat ds : Int)) else none
  | '+' :: ds => if ds ≠ [] && ds.all Char.isDigit then some ((digitsToNat ds : Int)) else none
  | ds => if ds ≠ [] && ds.all Char.isDigit then some ((digitsToNat ds : Int)) else none

/-! ### Untrusted argument bags -/

/-- A decoded JSON value, the shape of the untrusted `args` bag a tool call
carries (`Record<string, unknown>` once it passes `isObject`). -/
inductive JsVal where
  | str (s : String)
  | num (n : Int)
  | boolV (b : Bool)
  | nullV
  | arr (items : List JsVal)
  | obj (fields : List (String × JsVal))
  deriving Repr, Inhabited

/-- `isObject` from tool-runner.ts: a non-null non-array object. -/
def isObject : JsVal → Bool
  | JsVal.obj _ => true
  | _ => false

def jsGet (fields : List (String × JsVal)) (key : String) : Option JsVal :=
  fields.lookup key

/-- `readString(args, ...keys)`: the first key holding a string with
non-blank trim, trimmed. -/
def readString (args : List (String × JsVal)) (keys : List String) : Option String :=
  keys.findSome? fun key =>
    match jsGet args key with
    | some (JsVal.str s) => if jsTrim s ≠ "" then some (jsTrim s) else none
    | _ => none

/-- `readNumber(args, ...keys)`: the first key holding a finite number, or a
non-blank string that `Number` parses to a finite value. -/
def readNumber (args : List (String × JsVal)) (keys : List String) : Option Int :=
  keys.findSome? fun key =>
    match jsGet args key with
    | some (JsVal.num n) => some n
    | some (JsVal.str s) => if jsTrim s ≠ "" then jsParseNumber? s else none
    | _ => none

/-! ### The live document tree -/

/-- One element of the live tree.  `tag` is stored lowercased (the code only
ever reads `tagName.toLowerCase()`).  `id = ""` models an absent id
attribute.  Engine-computed facts — `visible`, `insideChatUi`
(`closest("[data-chat-ui='true']")`), `selMatches` (which non-id CSS
selector strings match this element), `descAnchors` (indices of descendant
`a` elements, document order), `closestSectionId`, `heading` (text of the
first `h1, h2, h3` descendant, for sections), `fallbackPath` (the
positional ancestor path the selector-synthesis walk would produce) — are
element-supplied, since the program obtains them only from the engine. -/
structure Elem where
  tag : String := ""
  id : String := ""
  textContent : String := ""
  ariaLabel : Option String := none
  placeholder : Option String := none
  nameAttr : Option String := none
  typeAttr : Option String := none
  roleAttr : Option String := none
  href : Option String := none
  dataProjectCard : Bool := false
  dataProjectOrder : Option String := none
  dataProjectTitle : Option String := none
  dataSection : Option String := none
  dataSummary : Option String := none
  heading : Option String := none
  insideChatUi : Bool := false
  visible : Bool := true
  isInputLike : Bool := false
  disabled : Bool := false
  value : String := ""
  selMatches : List String := []
  descAnchors : List Nat := []
  closestSectionId : String := ""
  fallbackPath : String := ""
  deriving Repr, DecidableEq, Inhabited

/-- The mutable page state the executor acts on: the elements in document
order plus the observable effects of executed actions (highlights applied,
elements clicked, the location fragment, the scroll offsets requested). -/
structure Doc where
  elems : List Elem := []
  url : String := ""
  title : String := ""
  highlighted : List Nat := []
  clicked : List Nat := []
  fragment : Option String := none
  scrollLog : List Int := []
  deriving Repr, DecidableEq, Inhabited

def elemAt (d : Doc) (i : Nat) : Elem := d.elems.getD i {}

def idxWhere (d : Doc) (p : Elem → Bool) : List Nat :=
  (List.range d.elems.length).filter fun i =>
    match d.elems[i]? with
    | some e => p e
    | none => false

/-- `document.getElementById` (never matches the empty id). -/
def getElementById (d : Doc) (s : String) : Option Nat :=
  if s = "" then none else d.elems.findIdx? (fun e => e.id = s)

/-- Whether the CSS selector string `sel` matches element `e`: either the
id selector of `e`, or one of the engine-recorded matches. -/
def matchesSelector (e : Elem) (sel : String) : Bool :=
  (e.id ≠ "" && sel = "#" ++ e.id) || e.selMatches.contains sel

/-- `safeQuery`: `document.querySelector` returning the first match in
document order; invalid selectors yield `null` (subsumed by no-match). -/
def safeQuery (d : Doc) (sel : String) : Option Nat :=
  d.elems.findIdx? (fun e => matchesSelector e sel)

def isInsideChatUi (e : Elem) : Bool := e.insideChatUi

def addHighlight (d : Doc) (i : Nat) : Doc :=
  { d with highlighted := d.highlighted ++ [i] }

/-- `describeElement`: tag plus the first 44 characters of the collapsed
visible text. -/
def describeElement (e : Elem) : String :=
  let text := squashWs e.textContent
  let trimmed := if text ≠ "" then " \"" ++ jsSlice text 44 ++ "\"" else ""
  "<" ++ e.tag ++ ">" ++ trimmed

/-! ### Target resolution (tool-runner.ts) -/

/-- The alias table, in insertion order (`Object.entries` order). -/
def SECTION_ALIASES : List (String × List String) :=
  [("hero", ["hero", "home", "top", "intro", "landing"]),
   ("about", ["about", "bio", "background", "profile"]),
   ("projects", ["projects", "portfolio", "work", "case studies", "case-study"]),
   ("skills", ["skills", "tech", "stack", "expertise"]),
   ("contact", ["contact", "hire", "email", "reach", "message"])]

def ORDINAL_TO_INDEX : List (String × Nat) :=
  [("first", 1), ("second", 2), ("third", 3), ("fourth", 4), ("fifth", 5)]

/-- `parseOrdinal`: an ordinal word first (table order), else the first
standalone integer literal (`\b(\d+)\b`). -/
def parseOrdinal (hint : String) : Option Nat :=
  let normalizedHint := normalize hint
  match ORDINAL_TO_INDEX.find? (fun p => includes normalizedHint p.1) with
  | some p => some p.2
  | none => firstStandaloneNum none normalizedHint.toList

/-- `hint.replace(/^#/, "")`: strip a single leading `#`. -/
def stripHash (s : String) : String :=
  match s.toList with
  | '#' :: rest => String.mk rest
  | _ => s

/-- The alias-table loop of `resolveSectionFromHint`: first canonical id one
of whose aliases occurs inside the normalized hint and whose element
exists (a missing element lets the loop continue). -/
def aliasScan (d : Doc) (nh : String) : List (String × List String) → Option Nat
  | [] => none
  | (id, aliases) :: rest =>
    if aliases.any (fun a => includes nh a) then
      match getElementById d id with
      | some i => some i
      | none => aliasScan d nh rest
    else aliasScan d nh rest

/-- The final scan of `resolveSectionFromHint`: first `section[id]` whose
normalized "id heading" text contains the hint. -/
def sectionScan (d : Doc) (nh : String) : Option Nat :=
  d.elems.findIdx? fun e =>
    e.tag = "section" && e.id ≠ "" &&
      includes (normalize (e.id ++ " " ++ (e.heading.getD ""))) nh

def resolveSectionFromHint (d : Doc) (hint : String) : Option Nat :=
  let normalizedHint := stripHash (normalize hint)
  if normalizedHint = "" then none
  else
    match getElementById d normalizedHint with
    | some i => some i
    | none =>
      match aliasScan d normalizedHint SECTION_ALIASES with
      | some i => some i
      | none => sectionScan d normalizedHint

/-- Indices of the `[data-project-card]` containers, document order. -/
def projectCards (d : Doc) : List Nat :=
  idxWhere d (fun e => e.dataProjectCard)

/-- The superlative test of `findProjectCardByHint`. -/
def hasSuperlative (nh : String) : Bool :=
  includes nh "most recent" || includes nh "latest" || includes nh "newest"

/-- `card.dataset.projectTitle ?? card.textContent ?? ""`. -/
def cardTitleText (e : Elem) : String :=
  e.dataProjectTitle.getD e.textContent

/-- `Number(card.dataset.projectOrder) === ordinal` (undefined gives NaN,
which compares equal to nothing). -/
def cardOrderEq (e : Elem) (ordinal : Nat) : Bool :=
  match e.dataProjectOrder with
  | some s => jsParseNumber? s = some (ordinal : Int)
  | none => false

def findProjectCardByHint (d : Doc) (hint : String) : Option Nat :=
  let cards := projectCards d
  if cards.isEmpty then none
  else
    let normalizedHint := normalize hint
    if hasSuperlative normalizedHint then
      match cards.find? (fun i => (elemAt d i).dataProjectOrder = some "1") with
      | some i => some i
      | none => cards.head?
    else
      let byTitle :=
        cards.find? (fun i => includes (normalize (cardTitleText (elemAt d i))) normalizedHint)
      match parseOrdinal normalizedHint with
      | some ordinal =>
        if 1 ≤ ordinal && ordinal ≤ cards.length then
          match cards.find? (fun i => cardOrderEq (elemAt d i) ordinal) with
          | some i => some i
          | none => cards[ordinal - 1]?
        else byTitle
      | none => byTitle

/-- The candidate set of `findByText`'s `querySelectorAll` query. -/
def isTextCandidate (e : Elem) : Bool :=
  (e.tag = "section" && e.id ≠ "") || e.dataProjectCard ||
    ["a", "button", "input", "textarea", "select",
     "h1", "h2", "h3", "p", "li"].contains e.tag

/-- The normalized composite string `findByText` scores against:
text content, aria-label, placeholder and data-project-title. -/
def compositeOf (e : Elem) : String :=
  normalize (e.textContent ++ " " ++ (e.ariaLabel.getD "") ++ " " ++
    (e.placeholder.getD "") ++ " " ++ (e.dataProjectTitle.getD ""))

/-- Score of one candidate: index of first occurrence plus composite
length; `none` models the `-1`/infinite score that excludes it. -/
def textScore (e : Elem) (target : String) : Option Nat :=
  match strIndexOf (compositeOf e) target with
  | some index => some (index + (compositeOf e).length)
  | none => none

/-- The scored candidate list of `findByText`, in document order. -/
def scoredCandidates (d : Doc) (target : String) : List (Nat × Nat) :=
  (idxWhere d (fun e => !isInsideChatUi e && isTextCandidate e)).filterMap
    fun i => (textScore (elemAt d i) target).map (fun s => (i, s))

/-- First element of minimal score.  Models the stable ascending sort of
`findByText` followed by taking `ranked[0]` (JS `Array.prototype.sort` is
stable, so ties keep document order). -/
def argminFirst (l : List (Nat × Nat)) : Option Nat :=
  (l.foldl
    (fun best p =>
      match best with
      | none => some p
      | some q => if p.2 < q.2 then some p else some q)
    none).map Prod.fst

def findByText (d : Doc) (text : String) : Option Nat :=
  let target := normalize text
  if target = "" then none
  else argminFirst (scoredCandidates d target)

/-- Attribute values `findInputByFieldName` compares against: name, id,
placeholder, aria-label — absent or empty ones dropped, the rest
normalized. -/
def fieldAttrs (e : Elem) : List String :=
  (([e.nameAttr, if e.id ≠ "" then some e.id else none,
     e.placeholder, e.ariaLabel].filterMap id).filter (fun s => s ≠ "")).map normalize

def findInputByFieldName (d : Doc) (fieldName : String) : Option Nat :=
  let normalizedField := normalize fieldName
  d.elems.findIdx? fun e =>
    (e.tag = "input" || e.tag = "textarea") && !isInsideChatUi e &&
      (fieldAttrs e).any (fun attr => includes attr normalizedField)

/-- `findElement`: the prioritized strategy chain (section hint, explicit
selector with chat-UI exclusion, then card / section-alias / ranked text
over the text hint). -/
def findElement (d : Doc) (args : List (String × JsVal)) : Option Nat :=
  let bySection :=
    match readString args ["sectionId", "section", "targetSection"] with
    | some sectionHint => resolveSectionFromHint d sectionHint
    | none => none
  match bySection with
  | some i => some i
  | none =>
    let bySelector :=
      match readString args ["selector"] with
      | some selector =>
        match safeQuery d selector with
        | some i => if isInsideChatUi (elemAt d i) then none else some i
        | none => none
      | none => none
    match bySelector with
    | some i => some i
    | none =>
      match readString args ["text", "label", "target", "projectName"] with
      | some textHint =>
        match findProjectCardByHint d textHint with
        | some i => some i
        | none =>
          match resolveSectionFromHint d textHint with
          | some i => some i
          | none => findByText d textHint
      | none => none

/-! ### Action execution (tool-runner.ts) -/

/-- `setFieldValue`: only input/textarea elements are written; the value is
committed through the prototype setter and input/change events plus focus
are synthesized (engine-side effects beyond the stored value). -/
def setFieldValue (d : Doc) (i : Nat) (v : String) : Doc :=
  if (elemAt d i).isInputLike then
    { d with elems := d.elems.set i { elemAt d i with value := v } }
  else d

/-- An action request; `name` is a string because the executor must also
reject names outside the closed set. -/
structure ToolCall where
  id : String
  name : String
  args : JsVal
  deriving Repr, Inhabited

structure ToolResult where
  toolCallId : String
  name : String
  success : Bool
  output : String
  deriving Repr, DecidableEq, Inhabited

/-- `result(call, success, output)`. -/
def result (call : ToolCall) (success : Bool) (output : String) : ToolResult :=
  { toolCallId := call.id, name := call.name, success := success, output := output }

/-- `runScrollBy`.  `Math.round` is the identity on the integers modelled
here; the requested offset is logged as the scroll effect. -/
def runScrollBy (call : ToolCall) (args : List (String × JsVal)) (d : Doc) :
    Doc × ToolResult :=
  match readNumber args ["delta", "amount"] with
  | none => (d, result call false "Missing numeric delta argument.")
  | some delta =>
    ({ d with scrollLog := d.scrollLog ++ [delta] },
     result call true
       (if 0 ≤ delta then
          "Scrolled down by " ++ toString delta ++ " pixels."
        else
          "Scrolled up by " ++ toString (-delta) ++ " pixels."))

def runNavigateToSection (call : ToolCall) (args : List (String × JsVal)) (d : Doc) :
    Doc × ToolResult :=
  match readString args ["sectionId", "section", "target"] with
  | none => (d, result call false "Missing target section id.")
  | some sectionHint =>
    match resolveSectionFromHint d sectionHint with
    | none => (d, result call false ("Section \"" ++ sectionHint ++ "\" was not found."))
    | some i =>
      let e := elemAt d i
      let d1 := if e.id ≠ "" then { d with fragment := some ("#" ++ e.id) } else d
      (addHighlight d1 i,
       result call true
         ("Moved to section \"" ++ (if e.id ≠ "" then e.id else sectionHint) ++ "\"."))

/-- `chooseLinkFromProjectCard`: keyword-based disambiguation among the
card's descendant anchors. -/
def chooseLinkFromProjectCard (d : Doc) (cardIdx : Nat) (hint : Option String) :
    Option Nat :=
  let links := (elemAt d cardIdx).descAnchors
  if links.isEmpty then none
  else
    let normalizedHint := normalize (hint.getD "")
    if includes normalizedHint "github" then
      match links.find? (fun j => includes (normalize (elemAt d j).textContent) "github") with
      | some j => some j
      | none => links.head?
    else if includes normalizedHint "live" || includes normalizedHint "demo" ||
        includes normalizedHint "preview" then
      match links.find? (fun j => includes (normalize (elemAt d j).textContent) "live") with
      | some j => some j
      | none => links.head?
    else links.head?

def runClickElement (call : ToolCall) (args : List (String × JsVal)) (d : Doc) :
    Doc × ToolResult :=
  match findElement d args with
  | none => (d, result call false "Could not find an element to click.")
  | some t0 =>
    let hint := readString args ["text", "label", "target"]
    let target :=
      if (elemAt d t0).dataProjectCard then
        match chooseLinkFromProjectCard d t0 hint with
        | some j => j
        | none => t0
      else t0
    let d1 := addHighlight d target
    let e := elemAt d1 target
    if e.tag = "button" && e.disabled then
      (d1, result call false "Target button is disabled and cannot be clicked.")
    else
      let href := e.href.getD ""
      let fragmentJump :=
        if e.tag = "a" && href.startsWith "#" then
          match resolveSectionFromHint d1 href with
          | some s => some s
          | none => none
        else none
      match fragmentJump with
      | some s =>
        ({ addHighlight d1 s with fragment := some href },
         result call true ("Moved to " ++ href ++ "."))
      | none =>
        ({ d1 with clicked := d1.clicked ++ [target] },
         result call true ("Clicked " ++ describeElement e ++ "."))

def runHighlightElement (call : ToolCall) (args : List (String × JsVal)) (d : Doc) :
    Doc × ToolResult :=
  match findElement d args with
  | none => (d, result call false "Could not find an element to highlight.")
  | some i =>
    (addHighlight d i, result call true ("Highlighted " ++ describeElement (elemAt d i) ++ "."))

/-- `fillSingleField`: explicit selector first (no chat-UI exclusion), else
attribute-matched input lookup; a miss throws the message naming the
field. -/
def fillSingleField (d : Doc) (fieldName value : String) (selector : Option String) :
    Except String (Doc × String) :=
  let bySelector :=
    match selector with
    | some sel => safeQuery d sel
    | none => none
  let target :=
    match bySelector with
    | some i => some i
    | none => findInputByFieldName d fieldName
  match target with
  | none => Except.error ("Could not find input field for \"" ++ fieldName ++ "\".")
  | some i =>
    Except.ok (addHighlight (setFieldValue d i value) i, fieldName ++ " updated")

/-- The string-valued entries of the `values` mapping, in insertion order. -/
def fillUpdates (args : List (String × JsVal)) : List (String × String) :=
  match jsGet args "values" with
  | some (JsVal.obj fields) =>
    fields.filterMap fun p =>
      match p.2 with
      | JsVal.str s => some (p.1, s)
      | _ => none
  | _ => []

/-- The sequential loop of `runFillInput` over a `values` mapping: the first
failure returns a failed result with the thrown message; already performed
fills stay. -/
def fillValuesLoop (call : ToolCall) (selector : Option String) :
    List (String × String) → Doc → List String → Doc × ToolResult
  | [], d, outputs =>
    (d, result call true
      ("Filled " ++ toString outputs.length ++ " field(s): " ++
        String.intercalate ", " outputs ++ "."))
  | (fieldName, value) :: rest, d, outputs =>
    match fillSingleField d fieldName value selector with
    | Except.error msg => (d, result call false msg)
    | Except.ok (d', out) => fillValuesLoop call selector rest d' (outputs ++ [out])

def runFillInput (call : ToolCall) (args : List (String × JsVal)) (d : Doc) :
    Doc × ToolResult :=
  let selector := readString args ["selector"]
  let updates := fillUpdates args
  if updates ≠ [] then fillValuesLoop call selector updates d []
  else
    match readString args ["value"] with
    | none => (d, result call false "Missing input value.")
    | some value =>
      let fieldName := (readString args ["fieldName", "name", "field"]).getD "input"
      match fillSingleField d fieldName value selector with
      | Except.ok (d', out) =>
        (d', result call true (out ++ " with \"" ++ jsSlice value 80 ++ "\"."))
      | Except.error msg => (d, result call false msg)

/-- `executeToolCall`: argument-shape guard, then dispatch over the closed
set of five action kinds; anything else is a failed result. -/
def executeToolCall (call : ToolCall) (d : Doc) : Doc × ToolResult :=
  match call.args with
  | JsVal.obj fields =>
    if call.name = "scroll_by" then runScrollBy call fields d
    else if call.name = "navigate_to_section" then runNavigateToSection call fields d
    else if call.name = "click_element" then runClickElement call fields d
    else if call.name = "highlight_element" then runHighlightElement call fields d
    else if call.name = "fill_input" then runFillInput call fields d
    else (d, result call false ("Unknown tool \"" ++ call.name ++ "\"."))
  | _ => (d, result call false "Invalid tool arguments.")

/-! ### Snapshot extraction (page-snapshot.ts)

The `Doc` passed to the extractor models the subtree of
`[data-portfolio-root] ?? document.body`; visibility (computed style and
bounding box) is the engine-computed `visible` flag. -/

def MAX_SECTIONS : Nat := 12
def MAX_ELEMENTS : Nat := 160
def MAX_TEXT : Nat := 260

/-- `normalizeText`: collapse whitespace and trim, then truncate to
`maxLength` with the three-character ellipsis marker. -/
def normalizeText (value : String) (maxLength : Nat) : String :=
  let trimmed := squashWs value
  if trimmed.length ≤ maxLength then trimmed
  else jsSlice trimmed (maxLength - 3) ++ "..."

def escapeAttribute (s : String) : String :=
  String.mk (s.toList.flatMap fun c =>
    if c = '\\' then ['\\', '\\'] else if c = '"' then ['\\', '"'] else [c])

/-- `escapeCssIdentifier`, modelled by its regex fallback branch (the
platform `CSS.escape` branch agrees on the identifiers this page emits). -/
def escapeCssIdentifier (s : String) : String :=
  String.mk (s.toList.flatMap fun c =>
    if c.isAlpha || c.isDigit || c = '_' || c = '-' then [c] else ['\\', c])

def isVisible (e : Elem) : Bool := e.visible

/-- `buildSelector`: id selector, else a uniquely matching name selector,
else (for anchors) a uniquely matching href selector, else the positional
ancestor path — the latter walks the live tree and is element-supplied
(`fallbackPath`). -/
def buildSelector (d : Doc) (e : Elem) : String :=
  if e.id ≠ "" then "#" ++ escapeCssIdentifier e.id
  else
    let byName :=
      match e.nameAttr with
      | some nm =>
        if nm ≠ "" &&
            (d.elems.filter (fun x : Elem => x.tag = e.tag && x.nameAttr = some nm)).length = 1 then
          some (e.tag ++ "[name=\"" ++ escapeAttribute nm ++ "\"]")
        else none
      | none => none
    match byName with
    | some sel => sel
    | none =>
      let byHref :=
        match e.href with
        | some h =>
          if h ≠ "" && e.tag = "a" &&
              (d.elems.filter (fun x : Elem => x.tag = "a" && x.href = some h)).length = 1 then
            some ("a[href=\"" ++ escapeAttribute h ++ "\"]")
          else none
        | none => none
      match byHref with
      | some sel => sel
      | none => e.fallbackPath

structure SectionData where
  id : String
  heading : String
  textPreview : String
  deriving Repr, DecidableEq, Inhabited

structure ElementData where
  selector : String
  tag : String
  text : String
  ariaLabel : String
  href : String
  inputName : String
  inputType : String
  sectionId : String
  deriving Repr, DecidableEq, Inhabited

/-- `collectSections`: visible identified sections, capped at 12; heading
from the first `h1/h2/h3` descendant (else the id), preview from the
`data-summary` attribute (else the text content, which on an element is
never null). -/
def collectSections (d : Doc) : List SectionData :=
  ((d.elems.filter fun e => e.tag = "section" && e.id ≠ "" && isVisible e).take
      MAX_SECTIONS).map fun e =>
    { id := e.id,
      heading := normalizeText (e.heading.getD e.id) 80,
      textPreview := normalizeText (e.dataSummary.getD e.textContent) MAX_TEXT }

/-- The `collectElements` query: identified sections, project cards,
anchors with href, buttons, inputs, textareas, selects, `[role='button']`. -/
def isSnapshotTarget (e : Elem) : Bool :=
  (e.tag = "section" && e.id ≠ "") || e.dataProjectCard ||
    (e.tag = "a" && e.href.isSome) ||
    ["button", "input", "textarea", "select"].contains e.tag ||
    e.roleAttr = some "button"

/-- Text aggregation of `collectElements`: text content, aria-label,
placeholder, data-project-title and data-section, absent or empty parts
dropped, joined with spaces. -/
def elementTextSource (e : Elem) : String :=
  String.intercalate " "
    ((([some e.textContent, e.ariaLabel, e.placeholder, e.dataProjectTitle,
        e.dataSection].filterMap id).filter fun s => s ≠ ""))

def firstSomeString (l : List (Option String)) : String :=
  ((l.filterMap id).head?).getD ""

def toElementData (d : Doc) (e : Elem) : ElementData :=
  { selector := buildSelector d e,
    tag := e.tag,
    text := normalizeText (elementTextSource e) 120,
    ariaLabel := normalizeText (e.ariaLabel.getD "") 80,
    href := normalizeText (e.href.getD "") 120,
    inputName := normalizeText
      (firstSomeString [e.nameAttr, if e.id ≠ "" then some e.id else none, e.placeholder]) 80,
    inputType := normalizeText (e.typeAttr.getD "") 40,
    sectionId := e.closestSectionId }

def collectElements (d : Doc) : List ElementData :=
  ((d.elems.filter fun e => isSnapshotTarget e && isVisible e).take MAX_ELEMENTS).map
    (toElementData d)

structure PageSnapshot where
  url : String
  title : String
  capturedAt : String
  sections : List SectionData
  elements : List ElementData
  deriving Repr, DecidableEq, Inhabited

/-- `extractPageSnapshot`; the capture timestamp comes from the external
clock and is modelled as the empty string. -/
def extractPageSnapshot (d : Doc) : PageSnapshot :=
  { url := d.url,
    title := d.title,
    capturedAt := "",
    sections := collectSections d,
    elements := collectElements d }

/-! ### API route (src/app/api/chat/route.ts) -/

def MAX_TOOL_CALLS_PER_TURN : Nat := 3

def TOOL_NAMES : List String :=
  ["scroll_by", "navigate_to_section", "click_element", "highlight_element",
   "fill_input"]

/-- `parseFunctionArgs`.  The record and catch-all branches are exact; the
branch re-parsing a string payload with the external `JSON.parse` is
modelled as its catch result (the empty record) — no claim here depends on
a doubly-encoded argument payload. -/
def parseFunctionArgs : Option JsVal → JsVal
  | some (JsVal.obj fields) => JsVal.obj fields
  | _ => JsVal.obj []

structure GeminiFunctionCall where
  name : Option String := none
  args : Option JsVal := none
  deriving Repr, Inhabited

structure GeminiPart where
  text : Option String := none
  functionCall : Option GeminiFunctionCall := none
  deriving Repr, Inhabited

/-- The accumulation loop of `extractToolCalls`: parts without a named
function call or with a name outside the closed set are skipped.  The ids
(`crypto.randomUUID()` / a timestamp fallback) are external entropy,
modelled by the position-based fallback shape. -/
def collectToolCalls : List GeminiPart → List ToolCall → List ToolCall
  | [], calls => calls
  | part :: rest, calls =>
    match part.functionCall with
    | none => collectToolCalls rest calls
    | some maybeCall =>
      match maybeCall.name with
      | none => collectToolCalls rest calls
      | some toolName =>
        if TOOL_NAMES.contains toolName then
          collectToolCalls rest
            (calls ++ [{ id := toString calls.length, name := toolName,
                         args := parseFunctionArgs maybeCall.args }])
        else collectToolCalls rest calls

/-- `extractToolCalls`: the collected calls, capped at
`MAX_TOOL_CALLS_PER_TURN` by `slice(0, ...)`. -/
def extractToolCalls (parts : List GeminiPart) : List ToolCall :=
  (collectToolCalls parts []).take MAX_TOOL_CALLS_PER_TURN

/-- `slimSnapshot`: at most the first 10 sections and 80 elements are
forwarded to the planning service. -/
def slimSnapshot (snapshot : PageSnapshot) : PageSnapshot :=
  { snapshot with
    sections := snapshot.sections.take 10,
    elements := snapshot.elements.take 80 }

structure ChatMessage where
  role : String
  content : String
  createdAt : String := ""
  deriving Repr, DecidableEq, Inhabited

def strUpper (s : String) : String := String.mk (s.toList.map Char.toUpper)

def historyToText (history : List ChatMessage) : String :=
  if history.isEmpty then "No previous conversation."
  else
    String.intercalate "\n"
      (history.map fun message => strUpper message.role ++ ": " ++ message.content)

/-- JSON string literal; models `JSON.stringify`'s escaping for the
characters occurring in this development. -/
def jsonStr (s : String) : String :=
  "\"" ++ String.mk (s.toList.flatMap fun c =>
    if c = '\\' then ['\\', '\\']
    else if c = '"' then ['\\', '"']
    else if c = '\n' then ['\\', 'n']
    else [c]) ++ "\""

def jsonOfSection (s : SectionData) : String :=
  "\x7b\"id\":" ++ jsonStr s.id ++ ",\"heading\":" ++ jsonStr s.heading ++
    ",\"textPreview\":" ++ jsonStr s.textPreview ++ "\x7d"

def jsonOfElement (e : ElementData) : String :=
  "\x7b\"selector\":" ++ jsonStr e.selector ++ ",\"tag\":" ++ jsonStr e.tag ++
    ",\"text\":" ++ jsonStr e.text ++ ",\"ariaLabel\":" ++ jsonStr e.ariaLabel ++
    ",\"href\":" ++ jsonStr e.href ++ ",\"inputName\":" ++ jsonStr e.inputName ++
    ",\"inputType\":" ++ jsonStr e.inputType ++ ",\"sectionId\":" ++
    jsonStr e.sectionId ++ "\x7d"

def jsonOfList (f : α → String) (l : List α) : String :=
  "[" ++ String.intercalate "," (l.map f) ++ "]"

/-- Models `JSON.stringify(snapshot, null, 2)` up to insignificant
whitespace. -/
def jsonOfSnapshot (s : PageSnapshot) : String :=
  "\x7b\"url\":" ++ jsonStr s.url ++ ",\"title\":" ++ jsonStr s.title ++
    ",\"capturedAt\":" ++ jsonStr s.capturedAt ++
    ",\"sections\":" ++ jsonOfList jsonOfSection s.sections ++
    ",\"elements\":" ++ jsonOfList jsonOfElement s.elements ++ "\x7d"

def jsonOfToolResult (r : ToolResult) : String :=
  "\x7b\"toolCallId\":" ++ jsonStr r.toolCallId ++ ",\"name\":" ++ jsonStr r.name ++
    ",\"success\":" ++ (if r.success then "true" else "false") ++
    ",\"output\":" ++ jsonStr r.output ++ "\x7d"

/-- `buildPlanningPrompt`, stated over the already slimmed snapshot. -/
def buildPlanningPromptSlim (message : String) (history : List ChatMessage)
    (slim : PageSnapshot) : String :=
  String.intercalate "\n"
    ["You are an AI co-browsing assistant for a portfolio website.",
     "Use the provided page snapshot to answer questions and decide tool calls.",
     "If user intent is ambiguous, ask a clarifying question instead of calling a tool.",
     "You may call at most " ++ toString MAX_TOOL_CALLS_PER_TURN ++ " tools in one turn.",
     "For section navigation requests, prefer navigate_to_section with section aliases.",
     "For project requests like latest/most recent/second project, use highlight_element or click_element with text hints.",
     "For contact form requests with multiple fields, prefer one fill_input call using values object.",
     "Do not invent sections or elements that do not exist in the snapshot.",
     "",
     "Conversation history:",
     historyToText history,
     "",
     "Latest user message: " ++ message,
     "",
     "Current page snapshot (JSON):",
     jsonOfSnapshot slim,
     "",
     "First decide: answer directly OR call tools if an action is requested."]

/-- `buildPlanningPrompt` as the route defines it: it serializes
`slimSnapshot(snapshot)`, never the raw snapshot. -/
def buildPlanningPrompt (message : String) (history : List ChatMessage)
    (snapshot : PageSnapshot) : String :=
  String.intercalate "\n"
    ["You are an AI co-browsing assistant for a portfolio website.",
     "Use the provided page snapshot to answer questions and decide tool calls.",
     "If user intent is ambiguous, ask a clarifying question instead of calling a tool.",
     "You may call at most " ++ toString MAX_TOOL_CALLS_PER_TURN ++ " tools in one turn.",
     "For section navigation requests, prefer navigate_to_section with section aliases.",
     "For project requests like latest/most recent/second project, use highlight_element or click_element with text hints.",
     "For contact form requests with multiple fields, prefer one fill_input call using values object.",
     "Do not invent sections or elements that do not exist in the snapshot.",
     "",
     "Conversation history:",
     historyToText history,
     "",
     "Latest user message: " ++ message,
     "",
     "Current page snapshot (JSON):",
     jsonOfSnapshot (slimSnapshot snapshot),
     "",
     "First decide: answer directly OR call tools if an action is requested."]

def buildFinalPromptSlim (message : String) (history : List ChatMessage)
    (slim : PageSnapshot) (toolResults : List ToolResult) : String :=
  String.intercalate "\n"
    ["You are an AI co-browsing assistant for a portfolio website.",
     "You already requested tools and now have execution results.",
     "Write the final assistant response for the user.",
     "Explain what was done and whether it succeeded.",
     "If a tool failed, provide one concrete recovery suggestion.",
     "If all tools succeeded, mention the final on-page state the user should now see.",
     "Keep the answer concise and conversational.",
     "",
     "Conversation history:",
     historyToText history,
     "",
     "Latest user message: " ++ message,
     "",
     "Tool execution results (JSON):",
     jsonOfList jsonOfToolResult toolResults,
     "",
     "Updated page snapshot (JSON):",
     jsonOfSnapshot slim]

def buildFinalPrompt (message : String) (history : List ChatMessage)
    (snapshot : PageSnapshot) (toolResults : List ToolResult) : String :=
  String.intercalate "\n"
    ["You are an AI co-browsing assistant for a portfolio website.",
     "You already requested tools and now have execution results.",
     "Write the final assistant response for the user.",
     "Explain what was done and whether it succeeded.",
     "If a tool failed, provide one concrete recovery suggestion.",
     "If all tools succeeded, mention the final on-page state the user should now see.",
     "Keep the answer concise and conversational.",
     "",
     "Conversation history:",
     historyToText history,
     "",
     "Latest user message: " ++ message,
     "",
     "Tool execution results (JSON):",
     jsonOfList jsonOfToolResult toolResults,
     "",
     "Updated page snapshot (JSON):",
     jsonOfSnapshot (slimSnapshot snapshot)]

/-! ### Client orchestration loop (chat-panel.tsx) -/

def MAX_HISTORY : Nat := 18

structure ChatResponse where
  assistantMessage : String
  toolCalls : Option (List ToolCall) := none
  awaitingToolResults : Bool := false
  deriving Repr, Inhabited

/-- `list.slice(-n)` for positive `n`: the last `n` entries. -/
def sliceLast (n : Nat) (l : List α) : List α := l.drop (l.length - n)

/-- `createMessage`; the `createdAt` timestamp comes from the external
clock. -/
def createMessage (role content : String) : ChatMessage :=
  { role := role, content := content }

/-- The action requests the client loop executes out of a planning reply:
`toolCalls?.slice(0, MAX_TOOL_CALLS_PER_TURN) ?? []`, run only when the
reply awaits tool results and the list is non-empty. -/
def clientExecutedCalls (reply : ChatResponse) : List ToolCall :=
  let toolCalls := (reply.toolCalls.getD []).take MAX_TOOL_CALLS_PER_TURN
  if reply.awaitingToolResults && !toolCalls.isEmpty then toolCalls else []

structure ChatState where
  messages : List ChatMessage := []
  isBusy : Bool := false
  deriving Repr, DecidableEq, Inhabited

def failureReply (errText : String) : ChatMessage :=
  createMessage "assistant" ("I couldn't complete that request. " ++ errText)

/-- `runConversation` along the path where the turn's planning call throws
(network error, or a non-OK response whose body `postChat` re-throws):
guard, append the user message (windowed), then the catch block appends the
single failure message and the finally block clears the busy flag. -/
def runConversationPlanningFail (st : ChatState) (rawMessage errText : String) :
    ChatState :=
  let message := jsTrim rawMessage
  if message = "" || st.isBusy then st
  else
    let userMessage := createMessage "user" message
    let history := sliceLast MAX_HISTORY (st.messages ++ [userMessage])
    let failMessage := failureReply errText
    { messages := sliceLast MAX_HISTORY (history ++ [failMessage]), isBusy := false }

/-! ### Concrete documents (models of the rendered portfolio page) -/

def heroSec : Elem :=
  { tag := "section", id := "hero"
    heading := some "Designing high-signal web products with AI-first workflows."
    textContent := "Now available for freelance build sprints Designing high-signal web products with AI-first workflows."
    dataSection := some "hero home intro" }

def aboutSec : Elem :=
  { tag := "section", id := "about", heading := some "About"
    textContent := "About I am a full-stack developer with a product mindset."
    dataSection := some "about bio background profile" }

def projectsSec : Elem :=
  { tag := "section", id := "projects", heading := some "Projects"
    textContent := "Projects Selected projects with production-style architecture."
    dataSection := some "projects portfolio work case studies" }

def skillsSec : Elem :=
  { tag := "section", id := "skills", heading := some "Skills"
    textContent := "Skills I work across frontend, backend, and deployment layers."
    dataSection := some "skills stack technology expertise" }

def contactSec : Elem :=
  { tag := "section", id := "contact", heading := some "Contact"
    textContent := "Contact Share your project scope and timeline."
    dataSection := some "contact hire reach email message" }

/-- The five identified sections of the rendered portfolio page. -/
def stdDoc : Doc :=
  { elems := [heroSec, aboutSec, projectsSec, skillsSec, contactSec] }

/-- A project card carrying explicit order 2, placed FIRST in document
order (document order differs from logical order). -/
def cardOrder2 : Elem :=
  { tag := "article", id := "project-2", dataProjectCard := true
    dataProjectOrder := some "2", dataProjectTitle := some "Atlas Talent Finder"
    textContent := "2025 Atlas Talent Finder A candidate ranking pipeline." }

/-- A project card carrying explicit order 1, placed second in document
order. -/
def cardOrder1 : Elem :=
  { tag := "article", id := "project-1", dataProjectCard := true
    dataProjectOrder := some "1", dataProjectTitle := some "PulseCart Analytics"
    textContent := "2026 Most Recent PulseCart Analytics A storefront analytics cockpit." }

def cardsDoc : Doc := { elems := [cardOrder2, cardOrder1] }

/-- The chat panel's own message box (`data-chat-ui` subtree). -/
def chatInput : Elem :=
  { tag := "textarea", id := "chat-input", insideChatUi := true, isInputLike := true
    nameAttr := some "chat-input"
    placeholder := some "Example: Open projects, highlight the latest one, then take me to contact." }

def chatDoc : Doc := { elems := [chatInput] }

def chatFillArgs : List (String × JsVal) :=
  [("selector", JsVal.str "#chat-input"), ("value", JsVal.str "hello"),
   ("fieldName", JsVal.str "chat")]

def chatFillCall : ToolCall :=
  { id := "call-chat", name := "fill_input", args := JsVal.obj chatFillArgs }

/-- The contact form's name field. -/
def nameInput : Elem :=
  { tag := "input", nameAttr := some "name", id := "contact-name"
    placeholder := some "Your name", isInputLike := true }

/-- The contact form's message field. -/
def msgInput : Elem :=
  { tag := "textarea", nameAttr := some "message", id := "contact-message"
    placeholder := some "Tell me what you are building", isInputLike := true }

/-- A form page holding a name field and a message field but no email
field. -/
def formDoc : Doc := { elems := [nameInput, msgInput] }

def formFillArgs : List (String × JsVal) :=
  [("values", JsVal.obj
    [("name", JsVal.str "Alex"), ("email", JsVal.str "alex@test.com")])]

def formFillCall : ToolCall :=
  { id := "call-form", name := "fill_input", args := JsVal.obj formFillArgs }

def tcOne : ToolCall := { id := "1", name := "scroll_by", args := JsVal.obj [] }

def tcTwo : ToolCall := { id := "2", name := "scroll_by", args := JsVal.obj [] }

def tcThree : ToolCall := { id := "3", name := "scroll_by", args := JsVal.obj [] }

def tcFour : ToolCall := { id := "4", name := "scroll_by", args := JsVal.obj [] }

/-- A planning reply carrying four action requests — one more than the
cap. -/
def replyFour : ChatResponse :=
  { assistantMessage := "", toolCalls := some [tcOne, tcTwo, tcThree, tcFour]
    awaitingToolResults := true }

/-- Spec-side recursion mirroring the sequential `values` loop: the field
name of the first entry whose resolution fails against the state built by
the previous fills (`none` when every entry resolves). -/
def firstFailure (selector : Option String) :
    List (String × String) → Doc → Option String
  | [], _ => none
  | (fieldName, value) :: rest, d =>
    match fillSingleField d fieldName value selector with
    | Except.error _ => some fieldName
    | Except.ok (d', _) => firstFailure selector rest d'

/-- Spec-side recursion: the document after performing every fill up to
(excluding) the first failing entry — fills are never rolled back. -/
def fillUntilFailure (selector : Option String) :
    List (String × String) → Doc → Doc
  | [], d => d
  | (fieldName, value) :: rest, d =>
    match fillSingleField d fieldName value selector with
    | Except.error _ => d
    | Except.ok (d', _) => fillUntilFailure selector rest d'


/-- A small page for text search: a chat-UI button, a long paragraph
mentioning "send" late, and a short page button mentioning it early. -/
def chatBtn : Elem := { tag := "button", textContent := "Send", insideChatUi := true }

def longPara : Elem :=
  { tag := "p", textContent := "You can send me a message anytime, sending is free." }

def sendBtn : Elem :=
  { tag := "button", textContent := "Send Message", ariaLabel := some "Send contact message" }

def textDoc : Doc := { elems := [chatBtn, longPara, sendBtn] }

/-- Correlation property of an Action Result: it carries the request's id
and name. -/
def resultFor (call : ToolCall) (r : ToolResult) : Prop :=
  r.toolCallId = call.id ∧ r.name = call.name

/-- A request whose argument bag is not an object. -/
def badArgsCall : ToolCall := { id := "x1", name := "scroll_by", args := JsVal.nullV }

/-- A request whose name is outside the closed set of five action kinds. -/
def badNameCall : ToolCall := { id := "x2", name := "open_modal", args := JsVal.obj [] }

/-! ### General helper lemmas -/

theorem length_mk (l : List Char) : (String.mk l).length = l.length := rfl

theorem toList_append (a b : String) : (a ++ b).toList = a.toList ++ b.toList := rfl

theorem isPrefixOf_append_right (l t : List Char) : l.isPrefixOf (l ++ t) = true := by
  induction l with
  | nil => simp [List.isPrefixOf]
  | cons c rest ih => simp [List.isPrefixOf, ih]

/-- A string occurring literally between two others is found by
`includes`. -/
theorem includes_append_middle (a b c : String) : includes (a ++ b ++ c) b = true := by
  unfold includes strIndexOf indexOfSub
  rw [Option.isSome_iff_exists]
  have hfind : (∃ k ∈ List.range (((a ++ b ++ c).toList).length + 1),
      (b.toList.isPrefixOf (((a ++ b ++ c).toList).drop k)) = true) := by
    refine ⟨a.toList.length, ?_, ?_⟩
    · rw [List.mem_range]
      have : (a ++ b ++ c).toList = a.toList ++ (b.toList ++ c.toList) := by
        rw [toList_append, toList_append, List.append_assoc]
      rw [this, List.length_append]
      omega
    · have : (a ++ b ++ c).toList = a.toList ++ (b.toList ++ c.toList) := by
        rw [toList_append, toList_append, List.append_assoc]
      rw [this, List.drop_append_eq_append_drop, List.drop_length,
        Nat.sub_self, List.drop_zero, List.nil_append]
      exact isPrefixOf_append_right _ _

  rcases List.find?_isSome.mpr (by exact hfind) |> Option.isSome_iff_exists.mp with ⟨k, hk⟩
  exact ⟨k, hk⟩

/-- The accumulator step of `argminFirst` never loses a value. -/
theorem argmin_go (l : List (Nat × Nat)) (q : Nat × Nat) :
    ∃ r, l.foldl
        (fun best p =>
          match best with
          | none => some p
          | some q' => if p.2 < q'.2 then some p else some q')
        (some q) = some r ∧
      (r = q ∨ r ∈ l) ∧ r.2 ≤ q.2 ∧ ∀ p ∈ l, r.2 ≤ p.2 := by
  induction l generalizing q with
  | nil => exact ⟨q, rfl, Or.inl rfl, Nat.le_refl _, by simp⟩
  | cons p rest ih =>
    by_cases hlt : p.2 < q.2
    · rcases ih p with ⟨r, hfold, hmem, hle, hall⟩
      refine ⟨r, ?_, ?_, ?_, ?_⟩
      · simpa [hlt] using hfold
      · rcases hmem with h | h
        · exact Or.inr (h ▸ List.mem_cons_self p rest)
        · exact Or.inr (List.mem_cons_of_mem p h)
      · exact Nat.le_trans hle (Nat.le_of_lt hlt)
      · intro x hx
        rcases List.mem_cons.mp hx with h | h
        · exact h ▸ hle
        · exact hall x h
    · rcases ih q with ⟨r, hfold, hmem, hle, hall⟩
      refine ⟨r, ?_, ?_, ?_, ?_⟩
      · simpa [hlt] using hfold
      · rcases hmem with h | h
        · exact Or.inl h
        · exact Or.inr (List.mem_cons_of_mem p h)
      · exact hle
      · intro x hx
        rcases List.mem_cons.mp hx with h | h
        · exact h ▸ Nat.le_trans hle (Nat.le_of_not_lt hlt)
        · exact hall x h

/-- `argminFirst` of a non-empty list returns an entry of minimal score. -/
theorem argminFirst_min (l : List (Nat × Nat)) (i : Nat)
    (h : argminFirst l = some i) :
    ∃ s, (i, s) ∈ l ∧ ∀ p ∈ l, s ≤ p.2 := by
  unfold argminFirst at h
  cases l with
  | nil => simp at h
  | cons q rest =>
    rcases argmin_go rest q with ⟨r, hfold, hmem, hle, hall⟩
    have hfold' : (q :: rest).foldl
        (fun best p =>
          match best with
          | none => some p
          | some q' => if p.2 < q'.2 then some p else some q')
        none = some r := by
      simpa using hfold
    rw [hfold'] at h
    simp only [Option.map_some'] at h
    refine ⟨r.2, ?_, ?_⟩
    · have : r = (i, r.2) := by
        cases r with
        | mk a b => simpa using congrArg (fun x => (x, b)) (by simpa using h)
      rcases hmem with hm | hm
      · rw [← this, hm]; exact List.mem_cons_self q rest
      · rw [← this]; exact List.mem_cons_of_mem q hm
    · intro p hp
      rcases List.mem_cons.mp hp with hp' | hp'
      · exact hp' ▸ hle
      · exact hall p hp'

theorem argminFirst_eq_none_iff (l : List (Nat × Nat)) :
    argminFirst l = none ↔ l = [] := by
  constructor
  · intro h
    cases l with
    | nil => rfl
    | cons q rest =>
      exfalso
      unfold argminFirst at h
      rcases argmin_go rest q with ⟨r, hfold, -, -, -⟩
      have hfold' : (q :: rest).foldl
          (fun best p =>
            match best with
            | none => some p
            | some q' => if p.2 < q'.2 then some p else some q')
          none = some r := by
        simpa using hfold
      rw [hfold'] at h
      simp at h
  · intro h
    subst h
    rfl

/-- Membership in `scoredCandidates` forces a real, non-chat-UI candidate
with that exact score. -/
theorem scoredCandidates_mem (d : Doc) (target : String) (i s : Nat)
    (h : (i, s) ∈ scoredCandidates d target) :
    i < d.elems.length ∧ isInsideChatUi (elemAt d i) = false ∧
      isTextCandidate (elemAt d i) = true ∧ textScore (elemAt d i) target = some s := by
  unfold scoredCandidates at h
  rcases List.mem_filterMap.mp h with ⟨j, hj, hmap⟩
  unfold idxWhere at hj
  rcases List.mem_filter.mp hj with ⟨hrange, hpred⟩
  have hjlt : j < d.elems.length := List.mem_range.mp hrange
  have hget : d.elems[j]? = some (elemAt d j) := by
    unfold elemAt
    rw [List.getD_eq_getElem?_getD, List.getElem?_eq_getElem hjlt]
    rfl
  rw [hget] at hpred
  have hpred' : (!isInsideChatUi (elemAt d j) && isTextCandidate (elemAt d j)) = true :=
    hpred
  rcases Bool.and_eq_true_iff.mp hpred' with ⟨hb, hc⟩
  have hij : j = i ∧ textScore (elemAt d j) target = some s := by
    cases hts : textScore (elemAt d j) target with
    | none => rw [hts] at hmap; simp at hmap
    | some v =>
      rw [hts] at hmap
      simp only [Option.map_some'] at hmap
      have hps : (j, v) = (i, s) := Option.some.inj hmap
      have h1 : j = i := congrArg Prod.fst hps
      have h2 : v = s := congrArg Prod.snd hps
      exact ⟨h1, congrArg some h2⟩
  rcases hij with ⟨rfl, hts⟩
  refine ⟨hjlt, ?_, hc, hts⟩
  simpa using hb

/-- `slice(-n)` of a list extended by one element keeps that element last
and retains a suffix of the original. -/
theorem sliceLast_append_one (n : Nat) (hn : 1 ≤ n) (l : List α) (x : α) :
    ∃ t, sliceLast n (l ++ [x]) = t ++ [x] ∧ List.IsSuffix t l := by
  unfold sliceLast
  refine ⟨l.drop ((l ++ [x]).length - n), ?_, List.drop_suffix _ l⟩
  rw [List.drop_append_eq_append_drop]
  have hk : (l ++ [x]).length - n ≤ l.length := by
    rw [List.length_append]
    simp only [List.length_singleton]
    omega
  rw [Nat.sub_eq_zero_of_le hk]
  rfl

/-! ### Claim theorems -/

/-- C1 (counterexample): on a page whose project cards carry explicit
orders 2 and 1 in that document order, the hint `"2nd project"` does not
resolve to the order-2 card — it resolves to nothing at all, because the
standalone-integer regex `\b(\d+)\b` cannot match the `2` of `"2nd"` (it
is followed by a word character) and no card title contains the hint. -/
theorem c1_counterexample :
    (cardsDoc.elems.map fun e => e.dataProjectOrder) = [some "2", some "1"] ∧
    findProjectCardByHint cardsDoc "2nd project" = none ∧
    findProjectCardByHint cardsDoc "2nd project" ≠ some 0 := by
  exact ⟨by decide, by decide, by decide⟩

/-- C1 (amended): when project cards exist, a hint containing
"most recent"/"latest"/"newest" resolves to the card with explicit order
attribute "1" (falling back to the first card in document order); a hint
whose parsed ordinal is two — such as one containing the word "second" —
resolves to the card whose explicit order attribute equals 2 even if
document order differs, falling back to the positionally second card.  The
literal "2nd", however, does NOT parse as an ordinal (the standalone
integer match fails on digits followed by a letter), so such hints fall
through to title matching instead. -/
theorem c1_project_card_resolution :
    (∀ (d : Doc) (hint : String), projectCards d ≠ [] →
      hasSuperlative (normalize hint) = true →
      findProjectCardByHint d hint =
        (match (projectCards d).find? (fun i => (elemAt d i).dataProjectOrder = some "1") with
         | some i => some i
         | none => (projectCards d).head?)) ∧
    (∀ (d : Doc) (hint : String), projectCards d ≠ [] →
      hasSuperlative (normalize hint) = false →
      parseOrdinal (normalize hint) = some 2 →
      2 ≤ (projectCards d).length →
      findProjectCardByHint d hint =
        (match (projectCards d).find? (fun i => cardOrderEq (elemAt d i) 2) with
         | some i => some i
         | none => (projectCards d)[1]?)) ∧
    parseOrdinal "second project" = some 2 ∧
    parseOrdinal "2nd project" = none := by
  refine ⟨?_, ?_, by decide, by decide⟩
  · intro d hint hno hsup
    have hempty : (projectCards d).isEmpty = false := by
      cases hcp : projectCards d with
      | nil => exact absurd hcp hno
      | cons a l => rfl
    simp only [findProjectCardByHint, hempty, hsup, Bool.false_eq_true, if_false, if_true]
  · intro d hint hno hsup hord hlen
    have hempty : (projectCards d).isEmpty = false := by
      cases hcp : projectCards d with
      | nil => exact absurd hcp hno
      | cons a l => rfl
    simp only [findProjectCardByHint, hempty, hsup, hord, Bool.false_eq_true, if_false,
      if_true, decide_eq_true hlen]
    simp

/-- C1 (witness): on the two-card page with document order 2, 1, the hint
"second project" resolves to the card with explicit order 2 — the FIRST
card in document order. -/
theorem c1_witness :
    findProjectCardByHint cardsDoc "second project" = some 0 ∧
    (elemAt cardsDoc 0).dataProjectOrder = some "2" ∧
    (elemAt cardsDoc 1).dataProjectOrder = some "1" := by
  have h := c1_project_card_resolution.2.1 cardsDoc "second project"
    (by decide) (by decide) (by decide) (by decide)
  refine ⟨?_, by decide, by decide⟩
  rw [h]
  decide

/-- C2: ranked full-corpus text search considers only the fixed candidate
set with chat-UI elements excluded — whatever it returns is a non-chat-UI
candidate, for any hint — and, for hints with non-empty normal form, it
returns `none` exactly when no candidate's composite contains the hint,
and otherwise a candidate of minimal score (first occurrence index plus
composite length). -/
theorem c2_ranked_text_search :
    (∀ (d : Doc) (text : String) (i : Nat), findByText d text = some i →
      isInsideChatUi (elemAt d i) = false ∧ isTextCandidate (elemAt d i) = true) ∧
    (∀ (d : Doc) (text : String), normalize text ≠ "" →
      ((findByText d text = none) ↔ scoredCandidates d (normalize text) = []) ∧
      (∀ i, findByText d text = some i →
        ∃ s, (i, s) ∈ scoredCandidates d (normalize text) ∧
          ∀ p ∈ scoredCandidates d (normalize text), s ≤ p.2)) := by
  constructor
  · intro d text i h
    unfold findByText at h
    by_cases ht : normalize text = ""
    · rw [if_pos ht] at h
      exact absurd h (by simp)
    · rw [if_neg ht] at h
      rcases argminFirst_min _ _ h with ⟨s, hmem, -⟩
      have hfacts := scoredCandidates_mem d (normalize text) i s hmem
      exact ⟨hfacts.2.1, hfacts.2.2.1⟩
  · intro d text ht
    constructor
    · unfold findByText
      rw [if_neg ht]
      exact argminFirst_eq_none_iff _
    · intro i h
      unfold findByText at h
      rw [if_neg ht] at h
      exact argminFirst_min _ i h

/-- C2 (witness): on a page with a chat-UI "Send" button, a long paragraph
mentioning "send" and a short "Send Message" button, the search returns
the page button (never the chat-UI one), and a hint occurring nowhere
yields `none`. -/
theorem c2_witness :
    (isInsideChatUi (elemAt textDoc 2) = false ∧
      isTextCandidate (elemAt textDoc 2) = true) ∧
    findByText textDoc "zzz" = none := by
  refine ⟨c2_ranked_text_search.1 textDoc "send" 2 (by decide), ?_⟩
  exact ((c2_ranked_text_search.2 textDoc "zzz" (by decide)).1).mpr (by decide)

/-- C3 (counterexample): the hint "stud" is contained as a substring in the
alias entry "case studies" of the canonical "projects" section, and that
section exists on the standard page — yet resolution returns nothing,
because the code tests the opposite containment (alias inside hint). -/
theorem c3_counterexample :
    includes "case studies" "stud" = true ∧
    ((SECTION_ALIASES.lookup "projects").getD []).contains "case studies" = true ∧
    (getElementById stdDoc "projects").isSome = true ∧
    resolveSectionFromHint stdDoc "stud" = none := by
  exact ⟨by decide, by decide, by decide, by decide⟩

/-- C3 (amended): when the normalized, `#`-stripped hint matches no element
id directly, resolution returns the first canonical section (in table
order, skipping canonicals whose element is missing) one of whose aliases
is contained as a substring IN the hint — the containment direction is
alias-inside-hint, not hint-inside-alias.  In particular, on the standard
page every hint exactly equal to a recognized synonym resolves to its
canonical section, regardless of which synonym is used. -/
theorem c3_section_alias_resolution :
    (∀ (d : Doc) (hint : String) (i : Nat),
      stripHash (normalize hint) ≠ "" →
      getElementById d (stripHash (normalize hint)) = none →
      aliasScan d (stripHash (normalize hint)) SECTION_ALIASES = some i →
      resolveSectionFromHint d hint = some i) ∧
    SECTION_ALIASES.all (fun p => p.2.all fun a =>
      resolveSectionFromHint stdDoc a == getElementById stdDoc p.1 &&
        (getElementById stdDoc p.1).isSome) = true := by
  refine ⟨?_, by decide⟩
  intro d hint i h1 h2 h3
  simp only [resolveSectionFromHint]
  rw [if_neg h1, h2, h3]

/-- C3 (witness): the synonym "bio" (no section has that id) resolves to
the canonical "about" section via the alias table. -/
theorem c3_witness :
    resolveSectionFromHint stdDoc "bio" = some 1 ∧ (elemAt stdDoc 1).id = "about" := by
  refine ⟨?_, by decide⟩
  exact c3_section_alias_resolution.1 stdDoc "bio" 1 (by decide) (by decide) (by decide)

/-- C4: at most 3 action requests are executed per turn — the server's
extraction truncates the collected calls to the first
`MAX_TOOL_CALLS_PER_TURN`, and the client loop executes at most the first
`MAX_TOOL_CALLS_PER_TURN` of the reply's requests (each executed request
being one of the reply's, never a deferred or invented one). -/
theorem c4_tool_call_cap :
    (∀ parts : List GeminiPart,
      (extractToolCalls parts).length ≤ MAX_TOOL_CALLS_PER_TURN ∧
      extractToolCalls parts = (collectToolCalls parts []).take MAX_TOOL_CALLS_PER_TURN) ∧
    (∀ reply : ChatResponse,
      (clientExecutedCalls reply).length ≤ MAX_TOOL_CALLS_PER_TURN ∧
      ∀ c ∈ clientExecutedCalls reply, c ∈ reply.toolCalls.getD []) := by
  constructor
  · intro parts
    refine ⟨?_, rfl⟩
    unfold extractToolCalls
    rw [List.length_take]
    exact Nat.min_le_left _ _
  · intro reply
    constructor
    · simp only [clientExecutedCalls]
      split
      · rw [List.length_take]
        exact Nat.min_le_left _ _
      · simp
    · intro c hc
      simp only [clientExecutedCalls] at hc
      split at hc
      · exact List.mem_of_mem_take hc
      · simp at hc


/-- C4 (witness): on a reply carrying four requests, the client executes at
most 3, the first request among them. -/
theorem c4_witness :
    (clientExecutedCalls replyFour).length ≤ MAX_TOOL_CALLS_PER_TURN ∧
    tcOne ∈ replyFour.toolCalls.getD [] ∧
    (clientExecutedCalls replyFour).length = 3 := by
  refine ⟨(c4_tool_call_cap.2 replyFour).1, ?_, rfl⟩
  exact (c4_tool_call_cap.2 replyFour).2 tcOne
    (List.mem_cons_self tcOne [tcTwo, tcThree] :
      tcOne ∈ clientExecutedCalls replyFour)

theorem fillSingleField_error_msg (d : Doc) (f v : String) (sel : Option String)
    (msg : String) (h : fillSingleField d f v sel = Except.error msg) :
    msg = "Could not find input field for \"" ++ f ++ "\"." := by
  simp only [fillSingleField] at h
  split at h
  · exact (Except.error.inj h).symm
  · exact absurd h (by simp)

theorem fillSingleField_ok_out (d : Doc) (f v : String) (sel : Option String)
    (d' : Doc) (out : String) (h : fillSingleField d f v sel = Except.ok (d', out)) :
    out = f ++ " updated" := by
  simp only [fillSingleField] at h
  split at h
  · exact absurd h (by simp)
  · have := Except.ok.inj h
    exact (congrArg Prod.snd this).symm

/-- The sequential fill loop against an arbitrary starting state: the final
document is exactly the fold of the successful fills up to the first
failure, the result is failed with the thrown message when some entry
fails, and successful otherwise with one "updated" item per field. -/
theorem fillValuesLoop_spec (call : ToolCall) (selector : Option String)
    (updates : List (String × String)) :
    ∀ (d : Doc) (outputs : List String),
      (fillValuesLoop call selector updates d outputs).1 =
        fillUntilFailure selector updates d ∧
      (match firstFailure selector updates d with
       | some f =>
         (fillValuesLoop call selector updates d outputs).2.success = false ∧
         (fillValuesLoop call selector updates d outputs).2.output =
           "Could not find input field for \"" ++ f ++ "\"."
       | none =>
         (fillValuesLoop call selector updates d outputs).2.success = true ∧
         (fillValuesLoop call selector updates d outputs).2.output =
           "Filled " ++
             toString (outputs ++ updates.map (fun p => p.1 ++ " updated")).length ++
             " field(s): " ++
             String.intercalate ", "
               (outputs ++ updates.map (fun p => p.1 ++ " updated")) ++ ".") := by
  induction updates with
  | nil =>
    intro d outputs
    simp [fillValuesLoop, fillUntilFailure, firstFailure, result]
  | cons u rest ih =>
    intro d outputs
    rcases u with ⟨f, v⟩
    cases hf : fillSingleField d f v selector with
    | error msg =>
      have hmsg := fillSingleField_error_msg d f v selector msg hf
      simp only [fillValuesLoop, fillUntilFailure, firstFailure, hf, result]
      simp [hmsg]
    | ok pr =>
      rcases pr with ⟨d', out⟩
      have hout := fillSingleField_ok_out d f v selector d' out hf
      subst hout
      simp only [fillValuesLoop, fillUntilFailure, firstFailure, hf]
      rcases ih d' (outputs ++ [f ++ " updated"]) with ⟨h1, h2⟩
      refine ⟨h1, ?_⟩
      cases hff : firstFailure selector rest d' with
      | some g =>
        rw [hff] at h2
        exact h2
      | none =>
        rw [hff] at h2
        simpa using h2

/-- C5: `fill_input` with a `values` mapping processes its entries in
sequence; if some field fails to resolve, the result is failed, its output
names the offending field, and every fill performed before the failure is
kept (no rollback); if every field resolves, the result is a success
reporting each field updated. -/
theorem c5_fill_input_partial_failure (call : ToolCall) (d : Doc)
    (args : List (String × JsVal)) (h : fillUpdates args ≠ []) :
    (runFillInput call args d).1 =
      fillUntilFailure (readString args ["selector"]) (fillUpdates args) d ∧
    (∀ f, firstFailure (readString args ["selector"]) (fillUpdates args) d = some f →
      (runFillInput call args d).2.success = false ∧
      includes (runFillInput call args d).2.output f = true ∧
      (runFillInput call args d).2.output =
        "Could not find input field for \"" ++ f ++ "\".") ∧
    (firstFailure (readString args ["selector"]) (fillUpdates args) d = none →
      (runFillInput call args d).2.success = true ∧
      (runFillInput call args d).2.output =
        "Filled " ++ toString (fillUpdates args).length ++ " field(s): " ++
          String.intercalate ", "
            ((fillUpdates args).map fun p => p.1 ++ " updated") ++ ".") := by
  have hloop := fillValuesLoop_spec call (readString args ["selector"]) (fillUpdates args) d []
  have hrun : runFillInput call args d =
      fillValuesLoop call (readString args ["selector"]) (fillUpdates args) d [] := by
    simp only [runFillInput]
    rw [if_pos h]
  rw [hrun]
  rcases hloop with ⟨h1, h2⟩
  refine ⟨h1, ?_, ?_⟩
  · intro f hf
    rw [hf] at h2
    refine ⟨h2.1, ?_, h2.2⟩
    rw [h2.2]
    exact includes_append_middle _ f _
  · intro hnone
    rw [hnone] at h2
    simpa using h2

/-- C5 (witness): filling `{name: "Alex", email: "alex@test.com"}` against
a form holding name and message fields but no email field fails naming
"email", while the name field keeps its freshly set value "Alex". -/
theorem c5_witness :
    (runFillInput formFillCall formFillArgs formDoc).2.success = false ∧
    includes (runFillInput formFillCall formFillArgs formDoc).2.output "email" = true ∧
    ((runFillInput formFillCall formFillArgs formDoc).1.elems.map fun e => e.value) =
      ["Alex", ""] := by
  have h := c5_fill_input_partial_failure formFillCall formDoc formFillArgs (by decide)
  have hf := h.2.1 "email" (by decide)
  exact ⟨hf.1, hf.2.1, by decide⟩

theorem sliceLast_of_le (n : Nat) (l : List α) (h : l.length ≤ n) :
    sliceLast n l = l := by
  unfold sliceLast
  rw [Nat.sub_eq_zero_of_le h, List.drop_zero]

/-- C6: when the turn's planning call fails, the turn ends with the busy
flag cleared (the system accepts a new turn), the history ends with
exactly one appended failure message summarizing the error, everything
before that message is a suffix of the pre-failure history (entries
appended earlier in the turn are retained, with at most window
truncation), and when the window is not full the final history is exactly
the prior messages plus the user message plus the failure message. -/
theorem c6_planning_failure_turn (st : ChatState) (raw err : String)
    (hbusy : st.isBusy = false) (hmsg : jsTrim raw ≠ "") :
    (runConversationPlanningFail st raw err).isBusy = false ∧
    (∃ retained,
      (runConversationPlanningFail st raw err).messages =
        retained ++ [failureReply err] ∧
      List.IsSuffix retained
        (sliceLast MAX_HISTORY (st.messages ++ [createMessage "user" (jsTrim raw)]))) ∧
    (runConversationPlanningFail st raw err).messages.getLast? =
      some (failureReply err) ∧
    (st.messages.length + 2 ≤ MAX_HISTORY →
      (runConversationPlanningFail st raw err).messages =
        st.messages ++ [createMessage "user" (jsTrim raw), failureReply err]) := by
  have hrun : runConversationPlanningFail st raw err =
      { messages := sliceLast MAX_HISTORY
          (sliceLast MAX_HISTORY (st.messages ++ [createMessage "user" (jsTrim raw)]) ++
            [failureReply err]),
        isBusy := false } := by
    simp only [runConversationPlanningFail, hbusy, hmsg]
    simp
  rw [hrun]
  rcases sliceLast_append_one MAX_HISTORY (by decide)
      (sliceLast MAX_HISTORY (st.messages ++ [createMessage "user" (jsTrim raw)]))
      (failureReply err) with ⟨t, heq, hsuffix⟩
  refine ⟨rfl, ⟨t, by simpa using heq, hsuffix⟩, ?_, ?_⟩
  · show (sliceLast MAX_HISTORY _).getLast? = _
    rw [heq]
    exact List.getLast?_concat t
  · intro hlen
    have h1 : (st.messages ++ [createMessage "user" (jsTrim raw)]).length ≤ MAX_HISTORY := by
      rw [List.length_append]
      simp only [List.length_singleton]
      unfold MAX_HISTORY at hlen ⊢
      omega
    rw [sliceLast_of_le _ _ h1]
    have h2 : (st.messages ++ [createMessage "user" (jsTrim raw)] ++
        [failureReply err]).length ≤ MAX_HISTORY := by
      rw [List.length_append, List.length_append]
      simp only [List.length_singleton]
      unfold MAX_HISTORY at hlen ⊢
      omega
    rw [sliceLast_of_le _ _ h2]
    simp

/-- C6 (witness): from an idle empty chat, a turn whose planning call
throws "boom" leaves exactly the user message followed by one failure
message, with the busy flag cleared. -/
theorem c6_witness :
    (runConversationPlanningFail { messages := [], isBusy := false } "hi" "boom").isBusy =
      false ∧
    (runConversationPlanningFail { messages := [], isBusy := false } "hi" "boom").messages =
      [createMessage "user" "hi", failureReply "boom"] := by
  have h := c6_planning_failure_turn { messages := [], isBusy := false } "hi" "boom"
    rfl (by decide)
  exact ⟨h.1, by simpa using h.2.2.2 (by decide)⟩

theorem runScrollBy_meta (call : ToolCall) (args : List (String × JsVal)) (d : Doc) :
    resultFor call (runScrollBy call args d).2 := by
  simp only [runScrollBy, resultFor]
  repeat' split
  all_goals exact ⟨rfl, rfl⟩

theorem runNavigateToSection_meta (call : ToolCall) (args : List (String × JsVal))
    (d : Doc) : resultFor call (runNavigateToSection call args d).2 := by
  simp only [runNavigateToSection, resultFor]
  repeat' split
  all_goals exact ⟨rfl, rfl⟩

theorem runClickElement_meta (call : ToolCall) (args : List (String × JsVal))
    (d : Doc) : resultFor call (runClickElement call args d).2 := by
  simp only [runClickElement, resultFor]
  repeat' split
  all_goals exact ⟨rfl, rfl⟩

theorem runHighlightElement_meta (call : ToolCall) (args : List (String × JsVal))
    (d : Doc) : resultFor call (runHighlightElement call args d).2 := by
  simp only [runHighlightElement, resultFor]
  repeat' split
  all_goals exact ⟨rfl, rfl⟩

theorem fillValuesLoop_meta (call : ToolCall) (sel : Option String) :
    ∀ (updates : List (String × String)) (d : Doc) (outputs : List String),
      resultFor call (fillValuesLoop call sel updates d outputs).2 := by
  intro updates
  induction updates with
  | nil => intro d outputs; exact ⟨rfl, rfl⟩
  | cons u rest ih =>
    intro d outputs
    rcases u with ⟨f, v⟩
    cases hf : fillSingleField d f v sel with
    | error msg =>
      simp only [fillValuesLoop, hf]
      exact ⟨rfl, rfl⟩
    | ok pr =>
      rcases pr with ⟨d', out⟩
      simp only [fillValuesLoop, hf]
      exact ih d' (outputs ++ [out])

theorem runFillInput_meta (call : ToolCall) (args : List (String × JsVal)) (d : Doc) :
    resultFor call (runFillInput call args d).2 := by
  simp only [runFillInput]
  split
  · exact fillValuesLoop_meta call _ _ d []
  · split
    · exact ⟨rfl, rfl⟩
    · split <;> exact ⟨rfl, rfl⟩

/-- Every branch of the executor produces a result correlated to its
request. -/
theorem executeToolCall_meta (call : ToolCall) (d : Doc) :
    resultFor call (executeToolCall call d).2 := by
  simp only [executeToolCall]
  split
  · split
    · exact runScrollBy_meta _ _ _
    · split
      · exact runNavigateToSection_meta _ _ _
      · split
        · exact runClickElement_meta _ _ _
        · split
          · exact runHighlightElement_meta _ _ _
          · split
            · exact runFillInput_meta _ _ _
            · exact ⟨rfl, rfl⟩
  · exact ⟨rfl, rfl⟩

/-- C7: the executor is total (it is a function in this model — every
branch yields exactly one result) and correlates results: the result's
toolCallId and name equal the request's; a request whose args is not an
object yields a failed result, and a request whose name is outside the
closed set of five action kinds yields a failed result rather than
raising. -/
theorem c7_executor_total_correlated (call : ToolCall) (d : Doc) :
    (executeToolCall call d).2.toolCallId = call.id ∧
    (executeToolCall call d).2.name = call.name ∧
    (isObject call.args = false → (executeToolCall call d).2.success = false) ∧
    (TOOL_NAMES.contains call.name = false →
      (executeToolCall call d).2.success = false) := by
  rcases executeToolCall_meta call d with ⟨hid, hname⟩
  refine ⟨hid, hname, ?_, ?_⟩
  · intro hobj
    cases hargs : call.args with
    | obj fields =>
      rw [hargs] at hobj
      simp [isObject] at hobj
    | str sv => simp [executeToolCall, hargs, result]
    | num nv => simp [executeToolCall, hargs, result]
    | boolV bv => simp [executeToolCall, hargs, result]
    | nullV => simp [executeToolCall, hargs, result]
    | arr itemsv => simp [executeToolCall, hargs, result]
  · intro hn
    simp only [TOOL_NAMES, List.contains_cons, List.contains_nil, Bool.or_false,
      Bool.or_eq_false_iff, beq_eq_false_iff_ne] at hn
    cases hargs : call.args with
    | obj fields =>
      simp only [executeToolCall, hargs]
      rw [if_neg hn.1, if_neg hn.2.1, if_neg hn.2.2.1, if_neg hn.2.2.2.1,
        if_neg hn.2.2.2.2]
      rfl
    | str sv => simp [executeToolCall, hargs, result]
    | num nv => simp [executeToolCall, hargs, result]
    | boolV bv => simp [executeToolCall, hargs, result]
    | nullV => simp [executeToolCall, hargs, result]
    | arr itemsv => simp [executeToolCall, hargs, result]

/-- C7 (witness): a scroll request with null args fails but still carries
its id; an "open_modal" request fails but still carries its name. -/
theorem c7_witness :
    (executeToolCall badArgsCall stdDoc).2.success = false ∧
    (executeToolCall badArgsCall stdDoc).2.toolCallId = "x1" ∧
    (executeToolCall badNameCall stdDoc).2.success = false ∧
    (executeToolCall badNameCall stdDoc).2.name = "open_modal" := by
  refine ⟨?_, ?_, ?_, ?_⟩
  · exact (c7_executor_total_correlated badArgsCall stdDoc).2.2.1 rfl
  · exact (c7_executor_total_correlated badArgsCall stdDoc).1
  · exact (c7_executor_total_correlated badNameCall stdDoc).2.2.2 rfl
  · exact (c7_executor_total_correlated badNameCall stdDoc).2.1

theorem normalizeText_spec (v : String) (L : Nat) (hL : 3 ≤ L) :
    (normalizeText v L).length ≤ L ∧
    (L < (squashWs v).length →
      ∃ p, normalizeText v L = p ++ "..." ∧ (normalizeText v L).length = L) := by
  unfold normalizeText
  by_cases h : (squashWs v).length ≤ L
  · rw [if_pos h]
    exact ⟨h, fun hlt => absurd h (by omega)⟩
  · rw [if_neg h]
    have hlen : (jsSlice (squashWs v) (L - 3) ++ "...").length = L := by
      rw [String.length_append]
      unfold jsSlice
      rw [length_mk, List.length_take]
      have hdata : (squashWs v).toList.length = (squashWs v).length := rfl
      rw [hdata]
      have h3 : ("..." : String).length = 3 := rfl
      rw [h3]
      omega
    exact ⟨le_of_eq hlen, fun hlt => ⟨jsSlice (squashWs v) (L - 3), rfl, hlen⟩⟩

/-- C8: every captured snapshot holds at most 12 sections and 160
elements; every section heading is at most 80 characters and every section
textPreview at most 260; and whenever the collapsed source text exceeds
its limit, the truncated string ends in the "..." marker and its length
equals the limit exactly. -/
theorem c8_snapshot_bounds (d : Doc) :
    (extractPageSnapshot d).sections.length ≤ MAX_SECTIONS ∧
    (extractPageSnapshot d).elements.length ≤ MAX_ELEMENTS ∧
    (∀ sec ∈ (extractPageSnapshot d).sections,
      sec.heading.length ≤ 80 ∧ sec.textPreview.length ≤ MAX_TEXT) ∧
    (∀ (v : String) (L : Nat), 3 ≤ L →
      (normalizeText v L).length ≤ L ∧
      (L < (squashWs v).length →
        ∃ p, normalizeText v L = p ++ "..." ∧ (normalizeText v L).length = L)) := by
  refine ⟨?_, ?_, ?_, ?_⟩
  · simp only [extractPageSnapshot, collectSections]
    rw [List.length_map, List.length_take]
    exact Nat.min_le_left _ _
  · simp only [extractPageSnapshot, collectElements]
    rw [List.length_map, List.length_take]
    exact Nat.min_le_left _ _
  · intro sec hsec
    simp only [extractPageSnapshot, collectSections] at hsec
    rcases List.mem_map.mp hsec with ⟨e, -, rfl⟩
    exact ⟨(normalizeText_spec _ 80 (by decide)).1,
      (normalizeText_spec _ MAX_TEXT (by decide)).1⟩
  · intro v L hL
    exact normalizeText_spec v L hL

/-- C8 (witness): the standard page snapshot respects the section cap, and
a ten-character text truncated at limit 5 has length exactly 5. -/
theorem c8_witness :
    (extractPageSnapshot stdDoc).sections.length ≤ MAX_SECTIONS ∧
    (normalizeText "aaaaaaaaaa" 5).length ≤ 5 ∧
    (normalizeText "aaaaaaaaaa" 5).length = 5 := by
  refine ⟨(c8_snapshot_bounds stdDoc).1, ?_, ?_⟩
  · exact ((c8_snapshot_bounds stdDoc).2.2.2 "aaaaaaaaaa" 5 (by decide)).1
  · rcases ((c8_snapshot_bounds stdDoc).2.2.2 "aaaaaaaaaa" 5 (by decide)).2
      (by decide) with ⟨p, -, hlen⟩
    exact hlen

/-- C9: `fill_input`'s explicit-selector resolution performs no
control-surface exclusion — the selector "#chat-input" targets the chat
panel's own input, which fill_input resolves, fills and highlights with a
successful result, while the click/highlight chain (`findElement`)
discards the same selector hit for being inside the chat UI and resolves
nothing. -/
theorem c9_fill_input_reaches_chat_ui :
    (elemAt chatDoc 0).insideChatUi = true ∧
    (executeToolCall chatFillCall chatDoc).2.success = true ∧
    ((executeToolCall chatFillCall chatDoc).1.elems.map fun e => e.value) = ["hello"] ∧
    (executeToolCall chatFillCall chatDoc).1.highlighted = [0] ∧
    findElement chatDoc chatFillArgs = none := by
  exact ⟨by decide, by decide, by decide, by decide, by decide⟩

/-- C10: the server slims every snapshot it forwards to at most the first
10 sections and 80 elements, and both the planning prompt and the final
prompt depend on the snapshot only through that slimmed form. -/
theorem c10_slim_snapshot_cap (s : PageSnapshot) :
    (slimSnapshot s).sections.length ≤ 10 ∧
    (slimSnapshot s).elements.length ≤ 80 ∧
    (∀ (m : String) (hist : List ChatMessage),
      buildPlanningPrompt m hist s = buildPlanningPromptSlim m hist (slimSnapshot s)) ∧
    (∀ (m : String) (hist : List ChatMessage) (tr : List ToolResult),
      buildFinalPrompt m hist s tr = buildFinalPromptSlim m hist (slimSnapshot s) tr) := by
  refine ⟨?_, ?_, fun m hist => rfl, fun m hist tr => rfl⟩
  · simp only [slimSnapshot]
    rw [List.length_take]
    exact Nat.min_le_left _ _
  · simp only [slimSnapshot]
    rw [List.length_take]
    exact Nat.min_le_left _ _

end NavChat
